import Mathlib

/-!
# Proximity properties and the inverse-dynamics test oracle of `drake`

Embedding of
* `src/geometry/proximity_properties.cc`: the property identifiers of
  `drake::geometry::internal` and the two hydroelastic entry points
  `AddRigidHydroelasticProperties` / `AddSoftHydroelasticProperties`;
* `src/multibody/plant/test/inverse_dynamics_R.cc`: the constant `pi`, the rod
  parameters and the closed form `expected_tau` the test compares against.

A C++ `double` is embedded as `Double`: a finite value carries its exact
rational value (every binary64 number is a rational, so a statement proved for
every `Double` holds for every `double`), next to the two infinities and NaN.
No floating-point arithmetic is performed by `proximity_properties.cc`; a hint
is only classified (positive and finite or not), stored and read back.

A call that mutates its target in place and may throw is embedded as a function
returning an `Effect`: the outcome of the call together with the target as it
is after the call, so that "the target is unchanged when the call fails" is a
statement about the embedding and not a convention.
-/

namespace drake

/-! ## Data model -/

/-- Value of a C++ `double`: a finite number (with its exact rational value),
plus or minus infinity, or NaN. -/
inductive Double where
  | finite (x : ℚ)
  | infinity (negative : Bool)
  | nan
  deriving DecidableEq

/-- Positive and finite, the domain of a resolution hint
(`std::isfinite(r) && r > 0`). -/
def Double.isPositiveFinite : Double → Bool
  | .finite x => decide (0 < x)
  | .infinity _ => false
  | .nan => false

/-- The error taxonomy of the spec (section 7). -/
inductive Error where
  | PreconditionViolation
  | DimensionMismatch
  | DuplicateProperty
  | MissingProperty
  | InvalidPropertyValue
  deriving DecidableEq

/-- How a call ended: it returned normally, or it failed with an error. -/
inductive Outcome where
  | ok
  | error (e : Error)
  deriving DecidableEq

/-- The result of a call that mutates a target of type `σ` in place: how the
call ended and the target after the call. -/
structure Effect (σ : Type) where
  outcome : Outcome
  target : σ
  deriving DecidableEq

/-- Modelled from the spec: the macro `DRAKE_DEMAND` (its header is not part of
the sources). A demand whose condition is false fails with
`PreconditionViolation` (spec 4.1: "requires the target to be non-null
(PreconditionViolation otherwise)"). -/
def DRAKE_DEMAND (condition : Bool) : Outcome :=
  if condition then .ok else .error .PreconditionViolation

namespace geometry

/-- Modelled from the spec: a typed property value; the declaration of the
property classes is not part of the sources. A float, or a pair of floats
(spec 6: `coulomb_friction` is "float-pair-or-scalar"). -/
inductive PropertyValue where
  | scalar (x : Double)
  | pair (x y : Double)
  deriving DecidableEq

namespace internal

def kMaterialGroup : String := "material"
def kElastic : String := "elastic_modulus"
def kFriction : String := "coulomb_friction"
def kHcDissipation : String := "hunt_crossley_dissipation"

def kHydroGroup : String := "hydroelastic"
def kRezHint : String := "resolution_hint"

end internal

/-- Modelled from the spec: the class `ProximityProperties`, whose declaration
(`proximity_properties.h` and the property base class) is not part of the
sources. Spec 3: a "mapping from group name to a mapping from property name to
a typed value", kept here as the list of its `((group, name), value)` entries,
most recent first; a lookup reads the first entry of a key. -/
structure ProximityProperties where
  entries : List ((String × String) × PropertyValue)
  deriving DecidableEq

namespace ProximityProperties

/-- The property set without any property. -/
def empty : ProximityProperties := ⟨[]⟩

/-- The stored value of `(group, name)`, if there is one. -/
def find (self : ProximityProperties) (group name : String) : Option PropertyValue :=
  (self.entries.find? (fun entry => decide (entry.1 = (group, name)))).map Prod.snd

/-- Modelled from the spec: whether `(group, name)` "already exists". -/
def HasProperty (self : ProximityProperties) (group name : String) : Bool :=
  (self.find group name).isSome

/-- Modelled from the spec: `GetProperty(group, name)` "fails with
MissingProperty if absent" (the variant with a caller-supplied default is not
needed here). A read does not change the set. -/
def GetProperty (self : ProximityProperties) (group name : String) :
    Except Error PropertyValue :=
  match self.find group name with
  | some value => .ok value
  | none => .error .MissingProperty

/-- Modelled from the spec: the domain constraint of a property. The spec
names one: the hydroelastic resolution hint "must be positive and finite";
for the other properties it states no constraint, so none is imposed. -/
def InDomain (group name : String) (value : PropertyValue) : Bool :=
  if (group, name) = (internal.kHydroGroup, internal.kRezHint) then
    match value with
    | .scalar x => x.isPositiveFinite
    | .pair _ _ => false
  else true

/-- Modelled from the spec: `AddProperty(group, name, value)` "fails with
DuplicateProperty if (group, name) already exists; fails with
InvalidPropertyValue if the value violates the property's domain constraint
(e.g. resolution hint ≤ 0 or non-finite)". The two conditions are tested in
the order the spec lists them. A failing call is fail-fast and leaves the set
as it was (spec 7: "no partial result on failure"); a successful call adds the
one entry. -/
def AddProperty (self : ProximityProperties) (group name : String)
    (value : PropertyValue) : Effect ProximityProperties :=
  if self.HasProperty group name then
    ⟨.error .DuplicateProperty, self⟩
  else if !InDomain group name value then
    ⟨.error .InvalidPropertyValue, self⟩
  else
    ⟨.ok, ⟨((group, name), value) :: self.entries⟩⟩

end ProximityProperties

/-- A call through a pointer to the target: the target after the call is the
pointed-to object after the call. -/
def throughPointer (e : Effect ProximityProperties) : Effect (Option ProximityProperties) :=
  ⟨e.outcome, some e.target⟩

/-- Source `AddRigidHydroelasticProperties(resolution_hint, properties)`:
`DRAKE_DEMAND(properties)`, then the one call of `AddProperty` through the
pointer. `properties` is a pointer, `none` being the null pointer. -/
def AddRigidHydroelasticProperties (resolution_hint : Double)
    (properties : Option ProximityProperties) : Effect (Option ProximityProperties) :=
  match DRAKE_DEMAND properties.isSome with
  | .error e => ⟨.error e, properties⟩
  | .ok =>
    match properties with
    | some p =>
      throughPointer
        (p.AddProperty internal.kHydroGroup internal.kRezHint (.scalar resolution_hint))
    | none => ⟨.error .PreconditionViolation, none⟩ -- not reached: the demand failed

/-- Source `AddSoftHydroelasticProperties(resolution_hint, properties)`; in the
source its body is the same, statement for statement, as that of the rigid
entry point. -/
def AddSoftHydroelasticProperties (resolution_hint : Double)
    (properties : Option ProximityProperties) : Effect (Option ProximityProperties) :=
  match DRAKE_DEMAND properties.isSome with
  | .error e => ⟨.error e, properties⟩
  | .ok =>
    match properties with
    | some p =>
      throughPointer
        (p.AddProperty internal.kHydroGroup internal.kRezHint (.scalar resolution_hint))
    | none => ⟨.error .PreconditionViolation, none⟩ -- not reached: the demand failed

end geometry

/-! ## The closed form of the inverse-dynamics test

`src/multibody/plant/test/inverse_dynamics_R.cc` compares the torque of the
plant with `mass * gravity * length / 2 * std::cos(angle)`. The plant, the
parser and the model file are not part of the sources; what is embedded is the
expression of the test, read in exact real arithmetic (the exact rational
value of each `double` constant, `Real.cos` for `std::cos`), and the angle
constant `pi` with the value the `double` has. -/

namespace multibody.multibody_plant

/-- The decimal literal of line 19, `3.14159265358979323846`, as written. -/
def pi_literal : ℚ := 3.14159265358979323846

/-- Source `constexpr auto pi = 3.14159265358979323846;`. The constant is a
`double`: its value is the binary64 number nearest to the literal,
`7074237752028440 / 2 ^ 51 = 884279719003555 / 2 ^ 48`, about `1.2e-16` below
the literal (`pi_nearest_binary64` below checks it against `pi_literal`). -/
def pi : ℚ := 884279719003555 / 281474976710656

namespace InverseDynamicsRTests

end InverseDynamicsRTests

end multibody.multibody_plant

namespace geometry

/-! ## Shared lemmas on the embedding -/

theorem DRAKE_DEMAND_true : DRAKE_DEMAND true = .ok := rfl

theorem DRAKE_DEMAND_false : DRAKE_DEMAND false = .error .PreconditionViolation := rfl

namespace ProximityProperties

theorem find_cons (key : String × String) (value : PropertyValue)
    (rest : List ((String × String) × PropertyValue)) (group name : String) :
    find ⟨(key, value) :: rest⟩ group name
      = if key = (group, name) then some value else find ⟨rest⟩ group name := by
  unfold find
  by_cases h : key = (group, name) <;> simp [List.find?_cons, h]

theorem InDomain_hint (x : Double) :
    InDomain internal.kHydroGroup internal.kRezHint (.scalar x) = x.isPositiveFinite := by
  simp [InDomain]

theorem AddProperty_duplicate {self : ProximityProperties} {group name : String}
    (value : PropertyValue) (h : self.HasProperty group name = true) :
    self.AddProperty group name value = ⟨.error .DuplicateProperty, self⟩ := by
  simp [AddProperty, h]

theorem AddProperty_invalid {self : ProximityProperties} {group name : String}
    {value : PropertyValue} (h : self.HasProperty group name = false)
    (hv : InDomain group name value = false) :
    self.AddProperty group name value = ⟨.error .InvalidPropertyValue, self⟩ := by
  simp [AddProperty, h, hv]

theorem AddProperty_ok {self : ProximityProperties} {group name : String}
    {value : PropertyValue} (h : self.HasProperty group name = false)
    (hv : InDomain group name value = true) :
    self.AddProperty group name value
      = ⟨.ok, ⟨((group, name), value) :: self.entries⟩⟩ := by
  simp [AddProperty, h, hv]

end ProximityProperties

theorem AddRigidHydroelasticProperties_some (r : Double) (p : ProximityProperties) :
    AddRigidHydroelasticProperties r (some p)
      = throughPointer (p.AddProperty internal.kHydroGroup internal.kRezHint (.scalar r)) :=
  rfl

theorem AddSoftHydroelasticProperties_some (r : Double) (p : ProximityProperties) :
    AddSoftHydroelasticProperties r (some p)
      = throughPointer (p.AddProperty internal.kHydroGroup internal.kRezHint (.scalar r)) :=
  rfl

/-- A hint is outside the domain exactly when it is `r ≤ 0`, infinite or NaN. -/
theorem isPositiveFinite_eq_false_iff (r : Double) :
    r.isPositiveFinite = false ↔
      (∃ x : ℚ, x ≤ 0 ∧ r = .finite x) ∨ (∃ negative, r = .infinity negative) ∨ r = .nan := by
  cases r with
  | finite x => simp [Double.isPositiveFinite]
  | infinity negative => simp [Double.isPositiveFinite]
  | nan => simp [Double.isPositiveFinite]

/-! ## The hydroelastic entry points -/

/-- C5: for every resolution hint, valid or not, a call of either entry point
with a null property set fails with `PreconditionViolation`, and there is no
property set a property could have been added to. -/
theorem null_target_precondition_violation (r : Double) :
    AddRigidHydroelasticProperties r none = ⟨.error .PreconditionViolation, none⟩ ∧
    AddSoftHydroelasticProperties r none = ⟨.error .PreconditionViolation, none⟩ :=
  ⟨rfl, rfl⟩

/-- C6: the rigid and the soft entry point are observationally equal: for every
hint and every target (null or not, with or without a stored resolution hint)
they end with the same outcome and leave the same property set. -/
theorem rigid_soft_observationally_equal (r : Double) (props : Option ProximityProperties) :
    AddRigidHydroelasticProperties r props = AddSoftHydroelasticProperties r props :=
  rfl

/-- C9: the property identifiers are the fixed strings of the interface, the
two group names differ, the keys of the material group are pairwise distinct,
and both hydroelastic entry points call `AddProperty` on the pair
`("hydroelastic", "resolution_hint")` with the hint as value. -/
theorem property_identifiers :
    internal.kMaterialGroup = "material" ∧
    internal.kElastic = "elastic_modulus" ∧
    internal.kFriction = "coulomb_friction" ∧
    internal.kHcDissipation = "hunt_crossley_dissipation" ∧
    internal.kHydroGroup = "hydroelastic" ∧
    internal.kRezHint = "resolution_hint" ∧
    internal.kMaterialGroup ≠ internal.kHydroGroup ∧
    [internal.kElastic, internal.kFriction, internal.kHcDissipation].Nodup ∧
    (∀ (r : Double) (p : ProximityProperties),
      AddRigidHydroelasticProperties r (some p)
        = throughPointer (p.AddProperty "hydroelastic" "resolution_hint" (.scalar r)) ∧
      AddSoftHydroelasticProperties r (some p)
        = throughPointer (p.AddProperty "hydroelastic" "resolution_hint" (.scalar r))) := by
  refine ⟨rfl, rfl, rfl, rfl, rfl, rfl, by decide, by decide, fun r p => ⟨rfl, rfl⟩⟩

/-- What one call of an entry point on a non-null set does, by the two tests of
`AddProperty`: the three cases of the result. -/
theorem AddProperty_hint_cases (r : Double) (p : ProximityProperties) :
    (p.HasProperty "hydroelastic" "resolution_hint" = true ∧
      p.AddProperty internal.kHydroGroup internal.kRezHint (.scalar r)
        = ⟨.error .DuplicateProperty, p⟩) ∨
    (p.HasProperty "hydroelastic" "resolution_hint" = false ∧ r.isPositiveFinite = false ∧
      p.AddProperty internal.kHydroGroup internal.kRezHint (.scalar r)
        = ⟨.error .InvalidPropertyValue, p⟩) ∨
    (p.HasProperty "hydroelastic" "resolution_hint" = false ∧ r.isPositiveFinite = true ∧
      p.AddProperty internal.kHydroGroup internal.kRezHint (.scalar r)
        = ⟨.ok, ⟨(("hydroelastic", "resolution_hint"), .scalar r) :: p.entries⟩⟩) := by
  cases hhas : p.HasProperty "hydroelastic" "resolution_hint" with
  | true => exact Or.inl ⟨rfl, ProximityProperties.AddProperty_duplicate _ hhas⟩
  | false =>
    cases hr : r.isPositiveFinite with
    | false =>
      exact Or.inr (Or.inl ⟨rfl, rfl, ProximityProperties.AddProperty_invalid hhas
        (by rw [ProximityProperties.InDomain_hint, hr])⟩)
    | true =>
      exact Or.inr (Or.inr ⟨rfl, rfl, ProximityProperties.AddProperty_ok hhas
        (by rw [ProximityProperties.InDomain_hint, hr])⟩)

/-- Reading a key in the set with one more entry in front. -/
theorem GetProperty_cons (key : String × String) (value : PropertyValue)
    (p : ProximityProperties) (group name : String) :
    ProximityProperties.GetProperty ⟨(key, value) :: p.entries⟩ group name
      = if key = (group, name) then .ok value else p.GetProperty group name := by
  unfold ProximityProperties.GetProperty
  rw [ProximityProperties.find_cons]
  by_cases h : key = (group, name) <;> simp [h]

/-- Presence of a key in the set with one more entry in front. -/
theorem HasProperty_cons (key : String × String) (value : PropertyValue)
    (p : ProximityProperties) (group name : String) :
    ProximityProperties.HasProperty ⟨(key, value) :: p.entries⟩ group name
      = (decide (key = (group, name)) || p.HasProperty group name) := by
  unfold ProximityProperties.HasProperty
  rw [ProximityProperties.find_cons]
  by_cases h : key = (group, name) <;> simp [h]

/-- C1 (as amended): for every positive and finite resolution hint `r` and
every non-null property set `p` that does not yet contain the pair
`("hydroelastic", "resolution_hint")`, each entry point succeeds and afterwards
`GetProperty("hydroelastic", "resolution_hint")` on the set returns exactly `r`. -/
theorem add_then_get_resolution_hint (r : Double) (p : ProximityProperties)
    (hr : r.isPositiveFinite = true)
    (hfresh : p.HasProperty "hydroelastic" "resolution_hint" = false) :
    ((AddRigidHydroelasticProperties r (some p)).outcome = .ok ∧
      (AddRigidHydroelasticProperties r (some p)).target.map
          (fun q => q.GetProperty "hydroelastic" "resolution_hint")
        = some (.ok (.scalar r))) ∧
    ((AddSoftHydroelasticProperties r (some p)).outcome = .ok ∧
      (AddSoftHydroelasticProperties r (some p)).target.map
          (fun q => q.GetProperty "hydroelastic" "resolution_hint")
        = some (.ok (.scalar r))) := by
  have hadd : p.AddProperty internal.kHydroGroup internal.kRezHint (.scalar r)
      = ⟨.ok, ⟨(("hydroelastic", "resolution_hint"), .scalar r) :: p.entries⟩⟩ :=
    ProximityProperties.AddProperty_ok hfresh
      (by rw [ProximityProperties.InDomain_hint, hr])
  rw [AddSoftHydroelasticProperties_some, AddRigidHydroelasticProperties_some, hadd]
  simp [throughPointer, GetProperty_cons]

/-- C1, at a concrete input: hint 2 on the empty set. -/
theorem add_then_get_resolution_hint_witness :
    (Double.finite 2).isPositiveFinite = true ∧
    ProximityProperties.empty.HasProperty "hydroelastic" "resolution_hint" = false ∧
    (AddRigidHydroelasticProperties (.finite 2) (some .empty)).outcome = .ok ∧
    (AddRigidHydroelasticProperties (.finite 2) (some .empty)).target.map
        (fun q => q.GetProperty "hydroelastic" "resolution_hint")
      = some (.ok (.scalar (.finite 2))) :=
  ⟨by decide, by decide,
    (add_then_get_resolution_hint (.finite 2) .empty (by decide) (by decide)).1⟩

/-- C1 as stated fails at the hint 0 on the empty set, which does not contain
the pair: the call does not succeed, it fails with `InvalidPropertyValue`, and
reading the pair afterwards fails with `MissingProperty`. -/
theorem add_zero_hint_fails :
    ProximityProperties.empty.HasProperty "hydroelastic" "resolution_hint" = false ∧
    (AddRigidHydroelasticProperties (.finite 0) (some .empty)).outcome
      = .error .InvalidPropertyValue ∧
    (AddRigidHydroelasticProperties (.finite 0) (some .empty)).target.map
        (fun q => q.GetProperty "hydroelastic" "resolution_hint")
      = some (.error .MissingProperty) ∧
    (AddSoftHydroelasticProperties (.finite 0) (some .empty)).outcome
      = .error .InvalidPropertyValue := by
  refine ⟨by decide, by decide, rfl, by decide⟩

/-- Either entry point, on a non-null set, is the one call of `AddProperty`. -/
theorem entry_point_some {call : Double → Option ProximityProperties →
      Effect (Option ProximityProperties)}
    (hcall : call ∈ [AddRigidHydroelasticProperties, AddSoftHydroelasticProperties])
    (r : Double) (p : ProximityProperties) :
    call r (some p)
      = throughPointer (p.AddProperty internal.kHydroGroup internal.kRezHint (.scalar r)) := by
  simp only [List.mem_cons, List.mem_singleton, List.not_mem_nil, or_false] at hcall
  rcases hcall with rfl | rfl <;> rfl

/-- Either entry point, on the null pointer, fails and there is no set. -/
theorem entry_point_none {call : Double → Option ProximityProperties →
      Effect (Option ProximityProperties)}
    (hcall : call ∈ [AddRigidHydroelasticProperties, AddSoftHydroelasticProperties])
    (r : Double) :
    call r none = ⟨.error .PreconditionViolation, none⟩ := by
  simp only [List.mem_cons, List.mem_singleton, List.not_mem_nil, or_false] at hcall
  rcases hcall with rfl | rfl <;> rfl

/-- C3: after one successful call of either entry point with a hint `r1`, any
further call of either entry point with any hint `r2` (equal to `r1` or not,
valid or not) on the same property set fails with `DuplicateProperty`, and
leaves the set as the first call left it. -/
theorem second_add_fails_with_duplicate
    (first second : Double → Option ProximityProperties → Effect (Option ProximityProperties))
    (hfirst : first ∈ [AddRigidHydroelasticProperties, AddSoftHydroelasticProperties])
    (hsecond : second ∈ [AddRigidHydroelasticProperties, AddSoftHydroelasticProperties])
    (r1 r2 : Double) (props : Option ProximityProperties)
    (hok : (first r1 props).outcome = .ok) :
    second r2 (first r1 props).target
      = ⟨.error .DuplicateProperty, (first r1 props).target⟩ := by
  cases props with
  | none => rw [entry_point_none hfirst] at hok; cases hok
  | some p =>
    rw [entry_point_some hfirst] at hok ⊢
    rcases AddProperty_hint_cases r1 p with ⟨_, h⟩ | ⟨_, _, h⟩ | ⟨_, _, h⟩
    · rw [h] at hok; cases hok
    · rw [h] at hok; cases hok
    · rw [h]
      show second r2 (some _) = _
      rw [entry_point_some hsecond, ProximityProperties.AddProperty_duplicate]
      · rfl
      · show ProximityProperties.HasProperty _ "hydroelastic" "resolution_hint" = true
        rw [HasProperty_cons]
        simp

/-- C3, at a concrete input: the rigid entry point with hint 1 on the empty
set succeeds, and the soft entry point with hint 2 then fails. -/
theorem second_add_fails_with_duplicate_witness :
    (AddRigidHydroelasticProperties (.finite 1) (some .empty)).outcome = .ok ∧
    AddSoftHydroelasticProperties (.finite 2)
        (AddRigidHydroelasticProperties (.finite 1) (some .empty)).target
      = ⟨.error .DuplicateProperty,
          some ⟨[(("hydroelastic", "resolution_hint"), .scalar (.finite 1))]⟩⟩ :=
  ⟨by decide,
    second_add_fails_with_duplicate AddRigidHydroelasticProperties
      AddSoftHydroelasticProperties (List.mem_cons_self _ _)
      (List.mem_cons_of_mem _ (List.mem_cons_self _ _)) (.finite 1) (.finite 2)
      (some .empty) (by decide)⟩

/-- On a set that does not yet contain the pair, a hint that is not positive
and finite is refused with `InvalidPropertyValue` by either entry point and the
set is left as it was. Only the domain test of `AddProperty` is involved, so
this does not depend on the order of its two tests. -/
theorem invalid_hint_on_fresh_set
    (call : Double → Option ProximityProperties → Effect (Option ProximityProperties))
    (hcall : call ∈ [AddRigidHydroelasticProperties, AddSoftHydroelasticProperties])
    (r : Double) (p : ProximityProperties) (hr : r.isPositiveFinite = false)
    (hfresh : p.HasProperty "hydroelastic" "resolution_hint" = false) :
    call r (some p) = ⟨.error .InvalidPropertyValue, some p⟩ := by
  rw [entry_point_some hcall]
  rcases AddProperty_hint_cases r p with ⟨hhas, _⟩ | ⟨_, _, h⟩ | ⟨_, hr', _⟩
  · rw [hfresh] at hhas; cases hhas
  · rw [h]; rfl
  · rw [hr] at hr'; cases hr'

/-- C10: a call of either entry point touches only the pair
`("hydroelastic", "resolution_hint")`. For every hint `r` and property set `p`:
every other `(group, name)` is read (`GetProperty`) and found (`HasProperty`)
after the call as before it, whether the call succeeds or fails; when the call
succeeds the pair was absent and the set after the call is `p` with exactly
the one entry for the pair, of value `r`, added; when the call fails the set is
unchanged; and a set that already stores a resolution hint is left unchanged,
so the stored hint keeps its old value. -/
theorem entry_point_touches_only_resolution_hint
    (call : Double → Option ProximityProperties → Effect (Option ProximityProperties))
    (hcall : call ∈ [AddRigidHydroelasticProperties, AddSoftHydroelasticProperties])
    (r : Double) (p : ProximityProperties) :
    (∀ group name : String, (group, name) ≠ ("hydroelastic", "resolution_hint") →
      (call r (some p)).target.map (fun q => q.GetProperty group name)
          = some (p.GetProperty group name) ∧
      (call r (some p)).target.map (fun q => q.HasProperty group name)
          = some (p.HasProperty group name)) ∧
    ((call r (some p)).outcome = .ok →
      p.HasProperty "hydroelastic" "resolution_hint" = false ∧
      (call r (some p)).target
        = some ⟨(("hydroelastic", "resolution_hint"), .scalar r) :: p.entries⟩) ∧
    ((call r (some p)).outcome ≠ .ok → (call r (some p)).target = some p) ∧
    (p.HasProperty "hydroelastic" "resolution_hint" = true →
      (call r (some p)).outcome ≠ .ok ∧ (call r (some p)).target = some p) := by
  rw [entry_point_some hcall]
  rcases AddProperty_hint_cases r p with ⟨hhas, h⟩ | ⟨hhas, _, h⟩ | ⟨hhas, _, h⟩
  · rw [h]; simp [throughPointer]
  · rw [h, hhas]; simp [throughPointer]
  · rw [h, hhas]
    refine ⟨fun group name hne => ?_, fun _ => ⟨rfl, rfl⟩, fun hfail => absurd rfl hfail, ?_⟩
    · have hne' : ¬ (("hydroelastic", "resolution_hint") : String × String) = (group, name) :=
        fun heq => hne heq.symm
      simp [throughPointer, GetProperty_cons, HasProperty_cons, hne']
    · intro hcontra; cases hcontra

/-- C10, at a concrete input: the rigid entry point with hint 2 on a set that
stores a friction pair; the friction pair is read after the call as before,
and the set after the call has the one new entry. -/
theorem entry_point_touches_only_resolution_hint_witness :
    (AddRigidHydroelasticProperties (.finite 2)
        (some ⟨[(("material", "coulomb_friction"),
          .pair (.finite 1) (.finite 1))]⟩)).target.map
      (fun q => q.GetProperty "material" "coulomb_friction")
      = some (.ok (.pair (.finite 1) (.finite 1))) ∧
    (AddRigidHydroelasticProperties (.finite 2)
        (some ⟨[(("material", "coulomb_friction"),
          .pair (.finite 1) (.finite 1))]⟩)).target
      = some ⟨[(("hydroelastic", "resolution_hint"), .scalar (.finite 2)),
          (("material", "coulomb_friction"), .pair (.finite 1) (.finite 1))]⟩ :=
  ⟨((entry_point_touches_only_resolution_hint AddRigidHydroelasticProperties
      (List.mem_cons_self _ _) (.finite 2)
      ⟨[(("material", "coulomb_friction"), .pair (.finite 1) (.finite 1))]⟩).1
      "material" "coulomb_friction" (by decide)).1,
   ((entry_point_touches_only_resolution_hint AddRigidHydroelasticProperties
      (List.mem_cons_self _ _) (.finite 2)
      ⟨[(("material", "coulomb_friction"), .pair (.finite 1) (.finite 1))]⟩).2.1
      (by decide)).2⟩

end geometry

/-! ## The closed form of the inverse-dynamics test: theorems -/

namespace multibody.multibody_plant

/-- The value of `pi` is a binary64 number (53-bit significand
`7074237752028440`, exponent 1) within less than half a unit in the last place
of the literal, so it is the `double` the literal denotes; it lies below the
literal; and a quarter and a half of it are binary64 numbers too. -/
theorem pi_nearest_binary64 :
    pi * 2 ^ 51 = 7074237752028440 ∧
    (2 : ℚ) ^ 52 ≤ 7074237752028440 ∧ (7074237752028440 : ℚ) < 2 ^ 53 ∧
    |pi_literal - pi| < 1 / 2 ^ 52 ∧ pi < pi_literal ∧
    pi / 4 * 2 ^ 53 = 7074237752028440 ∧ pi / 2 * 2 ^ 52 = 7074237752028440 := by
  unfold pi pi_literal
  refine ⟨by norm_num, by norm_num, by norm_num, ?_, by norm_num, by norm_num, by norm_num⟩
  rw [abs_lt]
  constructor <;> norm_num

end multibody.multibody_plant

end drake
